import Mathlib

/-!
Shallow embedding of `src/LoadInjector.py` (DCML load-injector framework).

Timestamps (`current_ms`) are modelled as integers (milliseconds since epoch).
Durations are modelled as `Int` (the Python parameter `duration_ms : float`
defaults to `1000`; every value the claims exercise is integral).
Sleep lengths are natural numbers: `time.sleep(random.random() * 0.01)` never
makes the clock go backwards.
-/

namespace DCML

/-- A ledger record appended by `inject_body`: a start and an end timestamp in
milliseconds, as stored into `self.injected_interval`. -/
structure Interval where
  start : Int
  end_ : Int
deriving DecidableEq, Repr

/-- The two concrete subclasses of `LoadInjector` in the source. -/
inductive InjectorKind
  | SSD
  | RAM
deriving DecidableEq, Repr

/-- The per-instance attribute state set up by `LoadInjector.__init__` and
mutated by `inject` / `inject_body`.  `live_workers` counts threads that have
been spawned by `inject` and whose `inject_body` has not yet returned; it
stands for the `inj_thread` handle plus any earlier still-running threads,
since `threading.Thread(...).start()` in `inject` is unconditional. -/
structure Injector where
  kind : InjectorKind
  valid : Bool
  tag : String
  duration_ms : Int
  completed_flag : Bool
  injected_interval : List Interval
  live_workers : Nat
deriving DecidableEq, Repr

/-- `LoadInjector.__init__`: sets `valid = True`, stores `tag` and
`duration_ms`, sets `completed_flag = True` and an empty ledger; no thread
exists yet. -/
def LoadInjector.new (kind : InjectorKind) (tag : String) (duration_ms : Int) : Injector :=
  { kind := kind
    valid := true
    tag := tag
    duration_ms := duration_ms
    completed_flag := true
    injected_interval := []
    live_workers := 0 }

/-- `SSDLoadInjector.__init__` just chains to `LoadInjector.__init__`. -/
def SSDLoadInjector.new (tag : String) (duration_ms : Int) : Injector :=
  LoadInjector.new InjectorKind.SSD tag duration_ms

/-- `RAMLoadInjector.__init__` just chains to `LoadInjector.__init__`. -/
def RAMLoadInjector.new (tag : String) (duration_ms : Int) : Injector :=
  LoadInjector.new InjectorKind.RAM tag duration_ms

/-- `LoadInjector.is_valid`. -/
def is_valid (s : Injector) : Bool :=
  s.valid

/-- `LoadInjector.is_injector_running`: `not self.completed_flag`. -/
def is_injector_running (s : Injector) : Bool :=
  !s.completed_flag

/-- `LoadInjector.get_injections`: `return self.injected_interval` (the value
of the internal ledger; see the pointer-level model below for the fact that
the Python statement returns the list object itself, not a copy). -/
def get_injections (s : Injector) : List Interval :=
  s.injected_interval

/-- `get_name`, dynamically dispatched: `SSDLoadInjector.get_name` and
`RAMLoadInjector.get_name` each build
`"[" + self.tag + "]<Class>LoadInjector(d" + str(self.duration_ms) + ")"`. -/
def get_name (s : Injector) : String :=
  match s.kind with
  | InjectorKind.SSD => "[" ++ s.tag ++ "]SSDLoadInjector(d" ++ toString s.duration_ms ++ ")"
  | InjectorKind.RAM => "[" ++ s.tag ++ "]RAMLoadInjector(d" ++ toString s.duration_ms ++ ")"

/-- `LoadInjector.inject`: unconditionally builds a new thread over
`inject_body` and starts it.  There is no check of `completed_flag` or
`valid` in the source, so the model simply spawns one more worker. -/
def inject (s : Injector) : Injector :=
  { s with live_workers := s.live_workers + 1 }

/-- The first statement a spawned `inject_body` executes:
`self.completed_flag = False`. -/
def workerEnter (s : Injector) : Injector :=
  { s with completed_flag := false }

/-- The `while current_ms() - start_time < self.duration_ms:` loop of
`inject_body`.  `elapsed` is `current_ms() - start_time`; each iteration
performs the two `time.sleep(random.random() * 0.01)` calls, advancing the
clock by the pair of sleep lengths supplied by the schedule.  If the finite
schedule is exhausted while the condition still holds the run is modelled as
unfinished (`none`). -/
def injectLoop (duration_ms : Int) : Nat → List (Nat × Nat) → Option Nat
  | elapsed, [] =>
      if (elapsed : Int) < duration_ms then none else some elapsed
  | elapsed, (d1, d2) :: rest =>
      if (elapsed : Int) < duration_ms then
        injectLoop duration_ms (elapsed + d1 + d2) rest
      else
        some elapsed

/-- A complete execution of `inject_body` (identical in `SSDLoadInjector` and
`RAMLoadInjector`): record `start_time`, loop until the elapsed time reaches
`duration_ms`, append the record with keys start and end to
`self.injected_interval`, set `completed_flag = True`, and let the worker
thread terminate. -/
def run_inject_body (s : Injector) (start_time : Int) (sleeps : List (Nat × Nat)) :
    Option Injector :=
  (injectLoop s.duration_ms 0 sleeps).map fun (elapsed : Nat) =>
    { s with
      completed_flag := true
      injected_interval := s.injected_interval ++ [⟨start_time, start_time + elapsed⟩]
      live_workers := s.live_workers - 1 }

/-- A job description: a mapping that may carry the keys consumed by
`fromJSON` (`type`, `tag`, `duration_ms`); each is optional. -/
structure Job where
  type? : Option String
  tag? : Option String
  duration_ms? : Option Int
deriving DecidableEq, Repr

/-- `SSDLoadInjector.fromJSON`: tag defaults to the empty string,
duration to 1000. -/
def SSDLoadInjector.fromJSON (job : Job) : Injector :=
  SSDLoadInjector.new (job.tag?.getD "") (job.duration_ms?.getD 1000)

/-- `RAMLoadInjector.fromJSON`: tag defaults to the empty string,
duration to 1000. -/
def RAMLoadInjector.fromJSON (job : Job) : Injector :=
  RAMLoadInjector.new (job.tag?.getD "") (job.duration_ms?.getD 1000)

/-- `LoadInjector.fromJSON`: `None` input gives `None`; a missing type key
gives `None`; a type tag in the SSD set builds an SSD injector, one in the
RAM set builds a RAM injector, anything else gives `None`. -/
def LoadInjector.fromJSON (job : Option Job) : Option Injector :=
  match job with
  | some j =>
    match j.type? with
    | some t =>
      if t = "SSD" ∨ t = "SSDUsage" ∨ t = "SolidStateDrive" then
        some (SSDLoadInjector.fromJSON j)
      else if t = "RAM" ∨ t = "RAMUsage" ∨ t = "Memory" then
        some (RAMLoadInjector.fromJSON j)
      else
        none
    | none => none
  | none => none

/-- Pointer-level heap of mutable Python lists: cell `r` holds the current
contents of the list object with identity `r`. -/
structure PHeap where
  cells : List (List Interval)
deriving DecidableEq, Repr

/-- Dereference a list object. -/
def PHeap.read (h : PHeap) (r : Nat) : List Interval :=
  h.cells.getD r []

/-- Replace the contents of a list object. -/
def PHeap.write (h : PHeap) (r : Nat) (v : List Interval) : PHeap :=
  ⟨h.cells.set r v⟩

/-- An injector at the reference level: the attribute `injected_interval`
holds the identity of a mutable list object living in the heap. -/
structure PInjector where
  injected_interval : Nat
deriving DecidableEq, Repr

/-- `LoadInjector.get_injections` at the reference level:
`return self.injected_interval` hands the caller the very list object the
attribute refers to. -/
def get_injections_ref (inj : PInjector) : Nat :=
  inj.injected_interval

/-- A caller-side `lst.append(iv)` on a list object it received. -/
def list_append (h : PHeap) (r : Nat) (iv : Interval) : PHeap :=
  h.write r (h.read r ++ [iv])

/-- Every entry of the ledger is well-formed: end not before start. -/
def ledger_wf (s : Injector) : Prop :=
  ∀ iv ∈ s.injected_interval, iv.start ≤ iv.end_

/-!  Supporting lemmas. -/

/-- Bounds for the timing loop: a completed loop stops with elapsed time at
least `d`, and (when every iteration advances the clock by at most `B`) at
most `d + B`, provided the invariant held on entry. -/
lemma injectLoop_bounds (d : Int) (B : Nat) :
    ∀ (sleeps : List (Nat × Nat)) (elapsed : Nat),
      (∀ p ∈ sleeps, p.1 + p.2 ≤ B) →
      ((elapsed : Int) < d ∨ (elapsed : Int) ≤ d + B) →
      ∀ e, injectLoop d elapsed sleeps = some e →
        d ≤ (e : Int) ∧ (e : Int) ≤ d + B := by
  intro sleeps
  induction sleeps with
  | nil =>
    intro elapsed _ hinv e he
    by_cases hlt : (elapsed : Int) < d
    · simp [injectLoop, hlt] at he
    · simp [injectLoop, hlt] at he
      subst he
      refine ⟨le_of_not_lt hlt, ?_⟩
      rcases hinv with h | h
      · exact absurd h hlt
      · exact h
  | cons p rest ih =>
    intro elapsed hB hinv e he
    by_cases hlt : (elapsed : Int) < d
    · rw [injectLoop, if_pos hlt] at he
      refine ih (elapsed + p.1 + p.2) (fun q hq => hB q (List.mem_cons_of_mem p hq)) ?_ e he
      have hpB : p.1 + p.2 ≤ B := hB p (List.mem_cons_self p rest)
      right
      push_cast
      omega
    · rw [injectLoop, if_neg hlt] at he
      cases he
      refine ⟨le_of_not_lt hlt, ?_⟩
      rcases hinv with h | h
      · exact absurd h hlt
      · exact h

/-!  Claim theorems. -/

/-- C7: for every tag and duration, the name accessor of the disk-like
variant returns the literal string pattern with variant name
SSDLoadInjector and the memory-like variant uses RAMLoadInjector; at
tag x and duration 500 the disk-like name is exactly the expected literal. -/
theorem c7_name_format :
    (∀ (tag : String) (d : Int),
      get_name (SSDLoadInjector.new tag d) =
        "[" ++ tag ++ "]SSDLoadInjector(d" ++ toString d ++ ")" ∧
      get_name (RAMLoadInjector.new tag d) =
        "[" ++ tag ++ "]RAMLoadInjector(d" ++ toString d ++ ")") ∧
    get_name (SSDLoadInjector.new "x" 500) = "[x]SSDLoadInjector(d500)" := by
  refine ⟨fun tag d => ⟨rfl, rfl⟩, ?_⟩
  rfl

/-- C8: for every job description, the variant descriptor constructors read
the tag key with default empty string and the duration key with
default 1000. -/
theorem c8_descriptor_defaults (j : Job) :
    (SSDLoadInjector.fromJSON j).tag = j.tag?.getD "" ∧
    (SSDLoadInjector.fromJSON j).duration_ms = j.duration_ms?.getD 1000 ∧
    (RAMLoadInjector.fromJSON j).tag = j.tag?.getD "" ∧
    (RAMLoadInjector.fromJSON j).duration_ms = j.duration_ms?.getD 1000 :=
  ⟨rfl, rfl, rfl, rfl⟩

/-- C9: a freshly constructed injector of either variant has an empty
ledger, so get_injections returns the empty sequence before any start. -/
theorem c9_fresh_ledger_empty (tag : String) (d : Int) :
    get_injections (SSDLoadInjector.new tag d) = [] ∧
    get_injections (RAMLoadInjector.new tag d) = [] :=
  ⟨rfl, rfl⟩

/-- C1: for either variant constructed with a nonnegative duration, when the
spawned work body runs to completion (so the instance reports not running),
the freshest ledger entry spans at least the requested duration, and at most
the duration plus the largest single per-iteration clock advance of the
schedule. -/
theorem c1_duration_bounds (kind : InjectorKind) (tag : String) (d : Int) (hd : 0 ≤ d)
    (start_time : Int) (sleeps : List (Nat × Nat)) (B : Nat)
    (hB : ∀ p ∈ sleeps, p.1 + p.2 ≤ B)
    (inj' : Injector)
    (h : run_inject_body (inject (LoadInjector.new kind tag d)) start_time sleeps = some inj') :
    is_injector_running inj' = false ∧
    ∃ iv, inj'.injected_interval.getLast? = some iv ∧
      d ≤ iv.end_ - iv.start ∧ iv.end_ - iv.start ≤ d + B := by
  rw [run_inject_body] at h
  rcases Option.map_eq_some'.mp h with ⟨e, he, hinj⟩
  have hbounds := injectLoop_bounds d B sleeps 0 hB (Or.inr (by push_cast; omega)) e he
  subst hinj
  refine ⟨rfl, ⟨start_time, start_time + e⟩, rfl, ?_, ?_⟩
  · dsimp only
    omega
  · dsimp only
    omega

/-- Concrete completed state used to witness C1: duration 0, an empty sleep
schedule, start time 5. -/
def c1done : Injector :=
  { kind := InjectorKind.SSD
    valid := true
    tag := ""
    duration_ms := 0
    completed_flag := true
    injected_interval := [⟨5, 5⟩]
    live_workers := 0 }

/-- Witness for C1 at a concrete run. -/
theorem c1_duration_bounds_witness :
    is_injector_running c1done = false ∧
    ∃ iv, c1done.injected_interval.getLast? = some iv ∧
      (0 : Int) ≤ iv.end_ - iv.start ∧ iv.end_ - iv.start ≤ (0 : Int) + (0 : Nat) :=
  c1_duration_bounds InjectorKind.SSD "" 0 le_rfl 5 [] 0 (by simp) c1done rfl

/-- C2: the factory returns none on an absent description and on a missing
type key; a type tag in the SSD alias set yields a disk-like instance, one in
the RAM alias set yields a memory-like instance, and any other tag yields
none (string equality, hence case-sensitive). -/
theorem c2_factory (j : Job) :
    LoadInjector.fromJSON none = none ∧
    (j.type? = none → LoadInjector.fromJSON (some j) = none) ∧
    (∀ t, j.type? = some t →
      ((t = "SSD" ∨ t = "SSDUsage" ∨ t = "SolidStateDrive") →
        LoadInjector.fromJSON (some j) = some (SSDLoadInjector.fromJSON j) ∧
        (SSDLoadInjector.fromJSON j).kind = InjectorKind.SSD) ∧
      ((t = "RAM" ∨ t = "RAMUsage" ∨ t = "Memory") →
        LoadInjector.fromJSON (some j) = some (RAMLoadInjector.fromJSON j) ∧
        (RAMLoadInjector.fromJSON j).kind = InjectorKind.RAM) ∧
      (¬(t = "SSD" ∨ t = "SSDUsage" ∨ t = "SolidStateDrive") →
        ¬(t = "RAM" ∨ t = "RAMUsage" ∨ t = "Memory") →
        LoadInjector.fromJSON (some j) = none)) := by
  refine ⟨rfl, ?_, ?_⟩
  · intro hnone
    simp [LoadInjector.fromJSON, hnone]
  · intro t ht
    refine ⟨?_, ?_, ?_⟩
    · intro hssd
      exact ⟨by simp [LoadInjector.fromJSON, ht, if_pos hssd], rfl⟩
    · intro hram
      have hnotssd : ¬(t = "SSD" ∨ t = "SSDUsage" ∨ t = "SolidStateDrive") := by
        rcases hram with h | h | h <;> subst h <;> decide
      exact ⟨by simp [LoadInjector.fromJSON, ht, if_neg hnotssd, if_pos hram], rfl⟩
    · intro hnotssd hnotram
      simp [LoadInjector.fromJSON, ht, if_neg hnotssd, if_neg hnotram]

/-- Witness for C2: the scenario job with type Memory resolves to a
memory-like injector, and an unknown tag resolves to none. -/
theorem c2_factory_witness :
    LoadInjector.fromJSON (some ⟨some "Memory", some "t1", some 200⟩) =
      some (RAMLoadInjector.fromJSON ⟨some "Memory", some "t1", some 200⟩) ∧
    (RAMLoadInjector.fromJSON ⟨some "Memory", some "t1", some 200⟩).kind = InjectorKind.RAM ∧
    LoadInjector.fromJSON (some ⟨some "Unknown", none, none⟩) = none := by
  refine ⟨?_, ?_, ?_⟩
  · exact (((c2_factory ⟨some "Memory", some "t1", some 200⟩).2.2 "Memory" rfl).2.1
      (Or.inr (Or.inr rfl))).1
  · exact (((c2_factory ⟨some "Memory", some "t1", some 200⟩).2.2 "Memory" rfl).2.1
      (Or.inr (Or.inr rfl))).2
  · exact ((c2_factory ⟨some "Unknown", none, none⟩).2.2 "Unknown" rfl).2.2
      (by decide) (by decide)

/-- A concrete instance that is Running: one worker has been spawned and its
body has entered (cleared the completed flag). -/
def c3running : Injector :=
  workerEnter (inject (SSDLoadInjector.new "" 1000))

/-- C3 counterexample: on an instance that reports running, calling inject
again is not a no-op — it spawns a second concurrent worker, so two
in-progress work bodies exist at once. -/
theorem c3_counterexample :
    is_injector_running c3running = true ∧
    inject c3running ≠ c3running ∧
    c3running.live_workers = 1 ∧
    (inject c3running).live_workers = 2 := by
  refine ⟨rfl, ?_, rfl, rfl⟩
  intro hcontra
  have : (inject c3running).live_workers = c3running.live_workers := by rw [hcontra]
  simp [inject] at this

/-- C3 (amended): inject never checks the running state; invoked while the
instance is running it spawns one more concurrent worker and so is not a
no-op. -/
theorem c3_inject_spawns (s : Injector) (_h : is_injector_running s = true) :
    (inject s).live_workers = s.live_workers + 1 ∧ inject s ≠ s := by
  refine ⟨rfl, ?_⟩
  intro hcontra
  have : (inject s).live_workers = s.live_workers := by rw [hcontra]
  simp [inject] at this

/-- Witness for the amended C3 at the concrete running instance. -/
theorem c3_inject_spawns_witness :
    (inject c3running).live_workers = c3running.live_workers + 1 ∧
    inject c3running ≠ c3running :=
  c3_inject_spawns c3running rfl

/-- Reading a cell just after writing it, when the cell exists. -/
lemma getD_set_self :
    ∀ (l : List (List Interval)) (r : Nat) (v d : List Interval),
      r < l.length → (l.set r v).getD r d = v := by
  intro l
  induction l with
  | nil =>
    intro r v d hr
    simp at hr
  | cons x xs ih =>
    intro r v d hr
    cases r with
    | zero => rfl
    | succ n =>
      simp only [List.set, List.getD, List.getElem?_cons_succ, List.length_cons] at *
      exact ih n v d (Nat.lt_of_succ_lt_succ hr)

/-- A one-cell heap whose single list object is empty, and an injector whose
ledger attribute refers to it. -/
def c4heap : PHeap :=
  ⟨[[]]⟩

/-- The injector holding the reference. -/
def c4inj : PInjector :=
  ⟨0⟩

/-- C4 counterexample: the internal ledger is empty, the caller appends one
entry to the sequence returned by get_injections, and the internal ledger
now holds that entry — the returned sequence was the internal list itself,
not a snapshot. -/
theorem c4_counterexample :
    c4heap.read c4inj.injected_interval = [] ∧
    (list_append c4heap (get_injections_ref c4inj) ⟨3, 7⟩).read c4inj.injected_interval =
      [⟨3, 7⟩] :=
  ⟨rfl, rfl⟩

/-- C4 (amended): get_injections hands back the internal list reference
itself; the value read through it at call time is exactly the internal
ledger, and a caller-side append through the returned reference changes the
injector's internal ledger. -/
theorem c4_alias (h : PHeap) (inj : PInjector) (iv : Interval)
    (hr : inj.injected_interval < h.cells.length) :
    get_injections_ref inj = inj.injected_interval ∧
    h.read (get_injections_ref inj) = h.read inj.injected_interval ∧
    (list_append h (get_injections_ref inj) iv).read inj.injected_interval =
      h.read inj.injected_interval ++ [iv] := by
  refine ⟨rfl, rfl, ?_⟩
  exact getD_set_self h.cells inj.injected_interval (h.read inj.injected_interval ++ [iv]) [] hr

/-- Witness for the amended C4 at the concrete one-cell heap. -/
theorem c4_alias_witness :
    get_injections_ref c4inj = c4inj.injected_interval ∧
    c4heap.read (get_injections_ref c4inj) = c4heap.read c4inj.injected_interval ∧
    (list_append c4heap (get_injections_ref c4inj) ⟨3, 7⟩).read c4inj.injected_interval =
      c4heap.read c4inj.injected_interval ++ [⟨3, 7⟩] :=
  c4_alias c4heap c4inj ⟨3, 7⟩ (by decide)

/-- A concrete invalid instance, as the contract allows a variant to produce
(validity cleared after the shared constructor ran). -/
def c5bad : Injector :=
  { SSDLoadInjector.new "" 0 with valid := false }

/-- C5 counterexample: on an instance whose validity flag is false, inject
still spawns a worker (not a no-op) and the work body runs to completion,
changing the ledger. -/
theorem c5_counterexample :
    is_valid c5bad = false ∧
    inject c5bad ≠ c5bad ∧
    run_inject_body (inject c5bad) 7 [] =
      some { c5bad with injected_interval := [⟨7, 7⟩] } := by
  refine ⟨rfl, ?_, rfl⟩
  intro hcontra
  have : (inject c5bad).live_workers = c5bad.live_workers := by rw [hcontra]
  simp [inject] at this

/-- C5 (amended): inject never consults the validity flag — on an invalid
instance it spawns the worker exactly as on a valid one (it does not crash,
but it is not a no-op and the body is launched); moreover no constructor of
this code ever produces an invalid instance, since the shared constructor
sets validity and neither variant overrides the setup hook. -/
theorem c5_no_validity_guard (s : Injector) (h : is_valid s = false) :
    inject s = { s with live_workers := s.live_workers + 1 } ∧
    is_valid (inject s) = false ∧
    (∀ (kind : InjectorKind) (tag : String) (d : Int),
      is_valid (LoadInjector.new kind tag d) = true) := by
  exact ⟨rfl, h, fun kind tag d => rfl⟩

/-- Witness for the amended C5 at the concrete invalid instance. -/
theorem c5_no_validity_guard_witness :
    inject c5bad = { c5bad with live_workers := c5bad.live_workers + 1 } ∧
    is_valid (inject c5bad) = false ∧
    (∀ (kind : InjectorKind) (tag : String) (d : Int),
      is_valid (LoadInjector.new kind tag d) = true) :=
  c5_no_validity_guard c5bad rfl

/-- C6: fresh ledgers are well-formed; inject and the body entry do not touch
the ledger; a completed body run appends exactly one record whose end is not
before its start, so it both extends the ledger (append-only) and preserves
well-formedness of every entry. -/
theorem c6_ledger_invariants :
    (∀ (kind : InjectorKind) (tag : String) (d : Int),
      ledger_wf (LoadInjector.new kind tag d)) ∧
    (∀ s : Injector, (inject s).injected_interval = s.injected_interval) ∧
    (∀ s : Injector, (workerEnter s).injected_interval = s.injected_interval) ∧
    (∀ (s : Injector) (start_time : Int) (sleeps : List (Nat × Nat)) (inj' : Injector),
      run_inject_body s start_time sleeps = some inj' →
      ∃ iv, inj'.injected_interval = s.injected_interval ++ [iv] ∧ iv.start ≤ iv.end_) ∧
    (∀ (s : Injector) (start_time : Int) (sleeps : List (Nat × Nat)) (inj' : Injector),
      run_inject_body s start_time sleeps = some inj' →
      ledger_wf s → ledger_wf inj') := by
  have happend :
      ∀ (s : Injector) (start_time : Int) (sleeps : List (Nat × Nat)) (inj' : Injector),
        run_inject_body s start_time sleeps = some inj' →
        ∃ iv, inj'.injected_interval = s.injected_interval ++ [iv] ∧ iv.start ≤ iv.end_ := by
    intro s start_time sleeps inj' h
    rw [run_inject_body] at h
    rcases Option.map_eq_some'.mp h with ⟨e, _, hinj⟩
    subst hinj
    refine ⟨⟨start_time, start_time + e⟩, rfl, ?_⟩
    dsimp only
    omega
  refine ⟨fun kind tag d => ?_, fun s => rfl, fun s => rfl, happend, ?_⟩
  · intro iv hiv
    simp [LoadInjector.new] at hiv
  · intro s start_time sleeps inj' h hwf iv hiv
    rcases happend s start_time sleeps inj' h with ⟨iv', hled, hle⟩
    rw [hled] at hiv
    rcases List.mem_append.mp hiv with hmem | hmem
    · exact hwf iv hmem
    · rcases List.mem_singleton.mp hmem with rfl
      exact hle

/-- Witness for C6 at a concrete completed run. -/
theorem c6_ledger_invariants_witness :
    ∃ iv,
      ({ kind := InjectorKind.SSD, valid := true, tag := "a", duration_ms := 0,
         completed_flag := true, injected_interval := [⟨2, 2⟩],
         live_workers := 0 } : Injector).injected_interval =
        (inject (SSDLoadInjector.new "a" 0)).injected_interval ++ [iv] ∧
      iv.start ≤ iv.end_ :=
  c6_ledger_invariants.2.2.2.1 (inject (SSDLoadInjector.new "a" 0)) 2 []
    { kind := InjectorKind.SSD, valid := true, tag := "a", duration_ms := 0,
      completed_flag := true, injected_interval := [⟨2, 2⟩], live_workers := 0 } rfl

/-- A freshly constructed instance on which inject was never called. -/
def c10fresh : Injector :=
  SSDLoadInjector.new "" 0

/-- The same instance after one started run has completed. -/
def c10completed : Injector :=
  { c10fresh with injected_interval := [⟨9, 9⟩] }

/-- C10 counterexample: the completed state is reached by an actual run; both
the fresh and the completed instance report not running (both expose a true
completed flag), yet get_injections tells them apart, so through the public
interface a never-started instance is distinguishable from a completed
one. -/
theorem c10_counterexample :
    run_inject_body (inject c10fresh) 9 [] = some c10completed ∧
    c10fresh.completed_flag = true ∧
    is_injector_running c10fresh = false ∧
    is_injector_running c10completed = false ∧
    get_injections c10fresh ≠ get_injections c10completed := by
  refine ⟨rfl, rfl, rfl, rfl, ?_⟩
  intro hcontra
  simp [get_injections, c10fresh, c10completed, SSDLoadInjector.new, LoadInjector.new]
    at hcontra

/-- C10 (amended): every freshly constructed instance has its completed flag
initialized to true and reports not running before any inject; the running
query alone cannot distinguish it from any state with a true completed flag,
such as one whose run has completed. -/
theorem c10_fresh_not_running (kind : InjectorKind) (tag : String) (d : Int) :
    (LoadInjector.new kind tag d).completed_flag = true ∧
    is_injector_running (LoadInjector.new kind tag d) = false ∧
    (∀ s : Injector, s.completed_flag = true →
      is_injector_running s = is_injector_running (LoadInjector.new kind tag d)) := by
  refine ⟨rfl, rfl, ?_⟩
  intro s hs
  simp [is_injector_running, hs, LoadInjector.new]

/-- Witness for the amended C10 at the concrete completed state. -/
theorem c10_fresh_not_running_witness :
    (LoadInjector.new InjectorKind.SSD "" 0).completed_flag = true ∧
    is_injector_running (LoadInjector.new InjectorKind.SSD "" 0) = false ∧
    is_injector_running c10completed =
      is_injector_running (LoadInjector.new InjectorKind.SSD "" 0) :=
  ⟨(c10_fresh_not_running InjectorKind.SSD "" 0).1,
   (c10_fresh_not_running InjectorKind.SSD "" 0).2.1,
   (c10_fresh_not_running InjectorKind.SSD "" 0).2.2 c10completed rfl⟩

end DCML
